import Mathlib

/-!
Verification development for the `candelivers` routing core.

This file gives a shallow embedding of the algorithmic core of the
repository — the capacity and driver-hours validators
(`src/services/routing/src/constraints.py`), the pairwise distance matrix
builder (`src/services/routing/src/distance.py`), and the route optimizer
(`src/services/routing/src/optimizer.py`) — and proves or refutes the
frozen specification claims about them.

Coordinates, weights, volumes and distances are modelled by rationals
standing for the source's floating-point numbers.  The great-circle
distance function `DistanceMatrix.distance_between` (the haversine
formula, built from trigonometric functions on floats) is not embedded
numerically: every definition that calls it is parameterized by an
abstract distance function `dist : Loc → Loc → ℚ`.  All claims about the
optimizer are proved for every such function; concrete evaluations use a
simple computable stand-in that shares the properties of haversine that
the evaluation depends on (zero on equal points, symmetry, and strict
monotonicity in coordinate separation along a parallel).
-/

namespace CanDelivers

/-- A geographic location, a (latitude, longitude) pair. -/
abbrev Loc : Type := ℚ × ℚ

/-- Embeds the `TimeWindow` dataclass of `constraints.py` (instants are
modelled as rationals; the optimizer never reads this field). -/
structure TimeWindow where
  earliest : ℚ
  latest : ℚ
  deriving DecidableEq

/-- Embeds the `Order` dataclass of `optimizer.py`. -/
structure Order where
  id : String
  pickup_location : Loc
  delivery_location : Loc
  time_window : TimeWindow
  weight_kg : ℚ
  volume_m3 : ℚ
  deriving DecidableEq

/-- Embeds the `Vehicle` dataclass of `optimizer.py`; `end_location = none`
models Python `None`. -/
structure Vehicle where
  id : String
  max_weight_kg : ℚ
  max_volume_m3 : ℚ
  start_location : Loc
  end_location : Option Loc := none
  deriving DecidableEq

/-- Embeds the `Route` dataclass of `optimizer.py`; `stops` is the list of
order indices in visiting order. -/
structure Route where
  vehicle_id : String
  stops : List ℕ
  total_distance : ℚ
  total_time_minutes : ℚ
  weight_used : ℚ
  volume_used : ℚ
  deriving DecidableEq

instance : Inhabited Order :=
  ⟨{ id := "", pickup_location := (0, 0), delivery_location := (0, 0),
     time_window := ⟨0, 0⟩, weight_kg := 0, volume_m3 := 0 }⟩

instance : Inhabited Vehicle :=
  ⟨{ id := "", max_weight_kg := 0, max_volume_m3 := 0, start_location := (0, 0) }⟩

instance : Inhabited Route :=
  ⟨{ vehicle_id := "", stops := [], total_distance := 0, total_time_minutes := 0,
     weight_used := 0, volume_used := 0 }⟩

/-! ## Constraint validators (`constraints.py`) -/

/-- The accumulator loop of `VehicleCapacityConstraint.validate`
(`constraints.py` lines 54-75): running weight/volume totals, returning
`false` as soon as either exceeds its maximum. -/
def vehicle_capacity_validate_loop (max_weight_kg max_volume_m3 : ℚ) :
    ℚ → ℚ → List (ℚ × ℚ) → Bool
  | _, _, [] => true
  | total_weight, total_volume, load :: rest =>
    let total_weight' := total_weight + load.1
    let total_volume' := total_volume + load.2
    if total_weight' > max_weight_kg then false
    else if total_volume' > max_volume_m3 then false
    else vehicle_capacity_validate_loop max_weight_kg max_volume_m3
      total_weight' total_volume' rest

/-- Embeds `VehicleCapacityConstraint.validate`: totals start at `0.0`. -/
def vehicle_capacity_validate (max_weight_kg max_volume_m3 : ℚ)
    (route_loads : List (ℚ × ℚ)) : Bool :=
  vehicle_capacity_validate_loop max_weight_kg max_volume_m3 0 0 route_loads

/-- Embeds `DriverHoursConstraint.validate` (`constraints.py` lines 139-164).
The three constructor parameters are passed explicitly (source defaults:
10.0, 0.5, 5.0). -/
def driver_hours_validate (max_shift_hours mandatory_break_hours break_after_hours : ℚ)
    (total_time_minutes driving_time_minutes : ℚ) : Bool :=
  let total_hours := total_time_minutes / 60
  let driving_hours := driving_time_minutes / 60
  if total_hours > max_shift_hours then false
  else if driving_hours > break_after_hours then
    if total_time_minutes < (driving_hours + mandatory_break_hours) * 60 then false
    else true
  else true

/-! ## Distance matrix (`distance.py`) -/

/-- Concatenation of per-index blocks of index pairs, mirroring a nested
`for` loop that emits pairs: block `g i` for each `i` of `l`, in order. -/
def pairBlocks (g : ℕ → List (ℕ × ℕ)) (l : List ℕ) : List (ℕ × ℕ) :=
  l.foldr (fun i acc => g i ++ acc) []

/-- The pairs `(i, j)` visited by the double loop of
`compute_distance_matrix` (`for i in range(n): for j in range(i+1, n)`),
in loop order. -/
def dmPairs (n : ℕ) : List (ℕ × ℕ) :=
  pairBlocks (fun i => (List.range' (i + 1) (n - (i + 1))).map fun j => (i, j))
    (List.range n)

/-- The two assignments `matrix[i][j] = d` followed by `matrix[j][i] = d`
on a matrix represented as a function. -/
def write2 (m : ℕ → ℕ → ℚ) (i j : ℕ) (d : ℚ) : ℕ → ℕ → ℚ :=
  fun a b =>
    if a = j ∧ b = i then d
    else if a = i ∧ b = j then d
    else m a b

/-- One iteration of the `compute_distance_matrix` loop body: compute the
haversine distance of the two locations of the pair and mirror it. -/
def dmStep (h : Loc → Loc → ℚ) (locations : List Loc)
    (m : ℕ → ℕ → ℚ) (p : ℕ × ℕ) : ℕ → ℕ → ℚ :=
  write2 m p.1 p.2 (h (locations.getD p.1 (0, 0)) (locations.getD p.2 (0, 0)))

/-- Embeds `DistanceMatrix.compute_distance_matrix` (`distance.py` lines
51-80), parameterized by the haversine function `h`: start from the zero
matrix (`np.zeros`) and run the upper-triangle loop, mirroring each entry. -/
def compute_distance_matrix (h : Loc → Loc → ℚ) (locations : List Loc) :
    ℕ → ℕ → ℚ :=
  (dmPairs locations.length).foldl (dmStep h locations) (fun _ _ => 0)

/-! ## Route optimizer (`optimizer.py`) -/

/-- The incumbent update of the greedy scan: `if distance < best_distance`
replace the incumbent (an absent incumbent models `best_distance = inf`,
which every distance beats). -/
def betterOf (best : Option (ℕ × ℚ)) (order_idx : ℕ) (d : ℚ) : Option (ℕ × ℚ) :=
  match best with
  | none => some (order_idx, d)
  | some best_pair => if d < best_pair.2 then some (order_idx, d) else some best_pair

/-- The inner scan of the greedy loop of
`_nearest_neighbor_initial_solution` (`optimizer.py` lines 152-179):
among the unassigned order indices, skip those that would exceed the
vehicle's capacity, and keep the strictly closest pickup. -/
def findBest (dist : Loc → Loc → ℚ) (orders : List Order) (vehicle : Vehicle)
    (current_weight current_volume : ℚ) (current_location : Loc) :
    List ℕ → Option (ℕ × ℚ) → Option (ℕ × ℚ)
  | [], best => best
  | order_idx :: rest, best =>
    let order := orders.getD order_idx default
    if current_weight + order.weight_kg > vehicle.max_weight_kg ∨
        current_volume + order.volume_m3 > vehicle.max_volume_m3 then
      findBest dist orders vehicle current_weight current_volume current_location
        rest best
    else
      findBest dist orders vehicle current_weight current_volume current_location
        rest (betterOf best order_idx (dist current_location order.pickup_location))

/-- The `while unassigned:` greedy loop of one vehicle (`optimizer.py`
lines 152-186), with explicit fuel (the source loop removes one element
of `unassigned` per iteration, so `unassigned.length` fuel is exact).
Returns the constructed order-index sequence and the remaining
unassigned pool. -/
def assignLoop (dist : Loc → Loc → ℚ) (orders : List Order) (vehicle : Vehicle) :
    ℕ → List ℕ → ℚ → ℚ → Loc → List ℕ × List ℕ
  | 0, unassigned, _, _, _ => ([], unassigned)
  | fuel + 1, unassigned, current_weight, current_volume, current_location =>
    match findBest dist orders vehicle current_weight current_volume
        current_location unassigned none with
    | none => ([], unassigned)
    | some best_pair =>
      let order := orders.getD best_pair.1 default
      let res := assignLoop dist orders vehicle fuel (unassigned.erase best_pair.1)
        (current_weight + order.weight_kg) (current_volume + order.volume_m3)
        order.delivery_location
      (best_pair.1 :: res.1, res.2)

/-- The metric accumulator of `_calculate_route_metrics` (`optimizer.py`
lines 236-277). -/
structure RMAcc where
  total_distance : ℚ
  total_time : ℚ
  total_weight : ℚ
  total_volume : ℚ
  current_location : Loc

/-- One order of the `_calculate_route_metrics` loop: travel to pickup
(at 40 km/h), 15 minutes pickup service, travel to delivery, 30 minutes
delivery service, accumulate load. -/
def metricsStep (dist : Loc → Loc → ℚ) (orders : List Order)
    (acc : RMAcc) (order_idx : ℕ) : RMAcc :=
  let order := orders.getD order_idx default
  let distance_to_pickup := dist acc.current_location order.pickup_location
  let distance_to_delivery := dist order.pickup_location order.delivery_location
  { total_distance := acc.total_distance + distance_to_pickup + distance_to_delivery
    total_time := acc.total_time + distance_to_pickup / 40 * 60 + 15 +
      distance_to_delivery / 40 * 60 + 30
    total_weight := acc.total_weight + order.weight_kg
    total_volume := acc.total_volume + order.volume_m3
    current_location := order.delivery_location }

/-- Embeds `_calculate_route_metrics` (`optimizer.py` lines 218-295),
including the optional return leg to `vehicle.end_location`. -/
def calculate_route_metrics (dist : Loc → Loc → ℚ) (order_indices : List ℕ)
    (orders : List Order) (vehicle : Vehicle) : Route :=
  let acc := order_indices.foldl (metricsStep dist orders)
    ⟨0, 0, 0, 0, vehicle.start_location⟩
  let acc2 :=
    match vehicle.end_location with
    | some end_location =>
      let distance_to_end := dist acc.current_location end_location
      { acc with
        total_distance := acc.total_distance + distance_to_end
        total_time := acc.total_time + distance_to_end / 40 * 60 }
    | none => acc
  { vehicle_id := vehicle.id
    stops := order_indices
    total_distance := acc2.total_distance
    total_time_minutes := acc2.total_time
    weight_used := acc2.total_weight
    volume_used := acc2.total_volume }

/-- The vehicle loop of `_nearest_neighbor_initial_solution`
(`optimizer.py` lines 142-192): process vehicles in order, breaking when
the unassigned pool is empty, appending a Route only when the vehicle
received at least one order.  Returns the routes and the final pool. -/
def nn_construct (dist : Loc → Loc → ℚ) (orders : List Order) :
    List Vehicle → List ℕ → List Route × List ℕ
  | [], unassigned => ([], unassigned)
  | vehicle :: rest, unassigned =>
    if unassigned = [] then ([], unassigned)
    else
      let res := assignLoop dist orders vehicle unassigned.length unassigned 0 0
        vehicle.start_location
      let rec_res := nn_construct dist orders rest res.2
      (if res.1 = [] then rec_res.1
       else calculate_route_metrics dist res.1 orders vehicle :: rec_res.1,
       rec_res.2)

/-- The capacity test of the leftover salvage pass (`optimizer.py` lines
200-206): position `i` qualifies when `i < len(routes)` and `routes[i]`'s
accumulated load plus the order fits within `vehicles[i]`'s maxima.  Note
the source compares `routes[i]` against `vehicles[i]`. -/
def route_fits (routes : List Route) (vehicles : List Vehicle) (order : Order)
    (i : ℕ) : Bool :=
  if i < routes.length ∧
      (routes.getD i default).weight_used + order.weight_kg ≤
        (vehicles.getD i default).max_weight_kg ∧
      (routes.getD i default).volume_used + order.volume_m3 ≤
        (vehicles.getD i default).max_volume_m3 then
    true
  else false

/-- The `for i, vehicle in enumerate(vehicles)` scan with `break` on the
first fitting position. -/
def findSalvage (routes : List Route) (vehicles : List Vehicle) (order : Order) :
    Option ℕ :=
  (List.range vehicles.length).find? (route_fits routes vehicles order)

/-- The in-place mutation of the salvage pass: append the order index to
the route's stops and bump its load totals (`optimizer.py` lines 207-209). -/
def addStopToRoute (route : Route) (order_idx : ℕ) (order : Order) : Route :=
  { route with
    stops := route.stops ++ [order_idx]
    weight_used := route.weight_used + order.weight_kg
    volume_used := route.volume_used + order.volume_m3 }

/-- One iteration of the salvage pass for a single leftover order index. -/
def salvageOne (vehicles : List Vehicle) (orders : List Order)
    (routes : List Route) (order_idx : ℕ) : List Route :=
  let order := orders.getD order_idx default
  match findSalvage routes vehicles order with
  | none => routes
  | some i => routes.set i (addStopToRoute (routes.getD i default) order_idx order)

/-- The `for order_idx in unassigned:` salvage loop (`optimizer.py` lines
195-214).  The remaining pool of the construction phase is kept in
increasing index order, matching CPython's iteration order over a set of
small ints. -/
def salvage (vehicles : List Vehicle) (orders : List Order) :
    List Route → List ℕ → List Route
  | routes, [] => routes
  | routes, order_idx :: rest =>
    salvage vehicles orders (salvageOne vehicles orders routes order_idx) rest

/-- Embeds `_nearest_neighbor_initial_solution` (`optimizer.py` lines
123-216): greedy construction over `set(range(len(orders)))` followed by
the leftover salvage pass. -/
def nearest_neighbor_initial_solution (dist : Loc → Loc → ℚ)
    (orders : List Order) (vehicles : List Vehicle) : List Route :=
  let res := nn_construct dist orders vehicles (List.range orders.length)
  salvage vehicles orders res.1 res.2

/-- Embeds `_calculate_route_distance` (`optimizer.py` lines 341-363):
the sum of distances from `(0.0, 0.0)` to the synthetic points
`(0.0, i * 0.001)` for `i` below the number of stops — the source's
"[s]implified" placeholder computation. -/
def calculate_route_distance (dist : Loc → Loc → ℚ) (stops : List ℕ) : ℚ :=
  if stops = [] then 0
  else ((List.range stops.length).map fun i => dist (0, 0) (0, (i : ℚ) * (1 / 1000))).sum

/-- The segment reversal `stops[:i+1] + stops[i+1:j+1][::-1] + stops[j+1:]`
tried by the 2-opt scan. -/
def twoOptSwap (stops : List ℕ) (i j : ℕ) : List ℕ :=
  stops.take (i + 1) ++ ((stops.drop (i + 1)).take (j - i)).reverse ++
    stops.drop (j + 1)

/-- The pairs `(i, j)` visited by the 2-opt double loop
(`for i in range(len(stops) - 1): for j in range(i + 2, len(stops))`),
in loop order. -/
def twoOptPairs (n : ℕ) : List (ℕ × ℕ) :=
  pairBlocks (fun i => (List.range' (i + 2) (n - (i + 2))).map fun j => (i, j))
    (List.range (n - 1))

/-- One full 2-opt scan (`optimizer.py` lines 319-334): the first pair
whose reversal strictly decreases `_calculate_route_distance` yields the
new stop sequence; `none` when a full scan finds no improving move. -/
def findImproving (dist : Loc → Loc → ℚ) (stops : List ℕ) : Option (List ℕ) :=
  ((twoOptPairs stops.length).find? fun p =>
    decide (calculate_route_distance dist (twoOptSwap stops p.1 p.2) <
      calculate_route_distance dist stops)).map
    fun p => twoOptSwap stops p.1 p.2

/-- The `while improved:` loop of `_improve_with_2opt`, with explicit
fuel: each accepted move restarts the scan from the top; the loop stops
when a scan finds no improving move (or fuel runs out; the no-move case
is proved to occur immediately for every input, so the fuel value is
immaterial). -/
def improveLoop (dist : Loc → Loc → ℚ) : ℕ → List ℕ → List ℕ
  | 0, stops => stops
  | fuel + 1, stops =>
    match findImproving dist stops with
    | none => stops
    | some new_stops => improveLoop dist fuel new_stops

/-- Embeds `_improve_with_2opt` (`optimizer.py` lines 297-339): each route
is processed independently, its `stops` field replaced by the result of
the 2-opt loop; no other field is written. -/
def improve_with_2opt (dist : Loc → Loc → ℚ) (routes : List Route) : List Route :=
  routes.map fun route =>
    { route with
      stops := improveLoop dist (route.stops.length * route.stops.length + 1)
        route.stops }

/-- Embeds `_extract_locations` (`optimizer.py` lines 95-121): vehicle
start locations first, then each order's pickup and delivery locations,
deduplicated in first-seen order. -/
def extract_locations (orders : List Order) (vehicles : List Vehicle) : List Loc :=
  let locs1 := vehicles.foldl
    (fun locs v => if v.start_location ∈ locs then locs else locs ++ [v.start_location])
    []
  orders.foldl
    (fun locs o =>
      let locs2 := if o.pickup_location ∈ locs then locs else locs ++ [o.pickup_location]
      if o.delivery_location ∈ locs2 then locs2 else locs2 ++ [o.delivery_location])
    locs1

/-- Embeds `RouteOptimizer.optimize` (`optimizer.py` lines 59-93),
parameterized by the distance function `dist` standing for
`self.distance_matrix.distance_between` (haversine).  The distance matrix
is built exactly as in the source; as in the source, the construction and
improvement phases look distances up through `distance_between` rather
than through the matrix. -/
def optimize (dist : Loc → Loc → ℚ) (orders : List Order) (vehicles : List Vehicle)
    (improve : Bool) : List Route :=
  if orders = [] then []
  else
    let locations := extract_locations orders vehicles
    let matrix := compute_distance_matrix dist locations
    let routes := nearest_neighbor_initial_solution dist orders vehicles
    if improve then improve_with_2opt dist routes else routes

/-! ## Derived notions used by the claims -/

/-- Concatenation of the stop lists of a list of routes. -/
def stopsAll : List Route → List ℕ
  | [] => []
  | route :: rest => route.stops ++ stopsAll rest

/-- Modelled from the spec: the "true sum of stop-to-stop haversine
distances" of a stop sequence "over the real pickup/delivery coordinates
of the orders in the sequence" — pickup-to-delivery for each order, plus
delivery-to-next-pickup between consecutive orders (spec §4.4, Phase 4).
This is the spec-side distance notion against which the source's
`_calculate_route_distance` is compared. -/
def true_stop_sequence_distance (dist : Loc → Loc → ℚ) (orders : List Order) :
    List ℕ → ℚ
  | [] => 0
  | [s] =>
    dist (orders.getD s default).pickup_location (orders.getD s default).delivery_location
  | s :: s' :: rest =>
    dist (orders.getD s default).pickup_location (orders.getD s default).delivery_location +
    dist (orders.getD s default).delivery_location (orders.getD s' default).pickup_location +
    true_stop_sequence_distance dist orders (s' :: rest)

/-- Total true travel distance over a list of routes (spec §8). -/
def total_true_distance (dist : Loc → Loc → ℚ) (orders : List Order)
    (routes : List Route) : ℚ :=
  (routes.map fun route => true_stop_sequence_distance dist orders route.stops).sum

/-- Cumulative weight of the orders named by a stop list. -/
def stop_weight_sum (orders : List Order) (stops : List ℕ) : ℚ :=
  (stops.map fun i => (orders.getD i default).weight_kg).sum

/-- Cumulative volume of the orders named by a stop list. -/
def stop_volume_sum (orders : List Order) (stops : List ℕ) : ℚ :=
  (stops.map fun i => (orders.getD i default).volume_m3).sum

/-- A computable stand-in distance for concrete evaluations: squared
Euclidean separation of the coordinate pairs.  Like haversine it is
symmetric, zero on identical points, and — for points on a common
parallel — strictly increasing in longitude separation, which is all the
concrete traces below depend on. -/
def sqDist (p q : Loc) : ℚ :=
  (p.1 - q.1) * (p.1 - q.1) + (p.2 - q.2) * (p.2 - q.2)

/-- Concrete orders for the salvage trace: all points on the equator
(latitude 0), pickup longitudes 1, 2, 3, so the pairwise distances from
any vehicle start at longitude 0 are strictly increasing in the order
index — the greedy selections below match haversine's ordering. -/
def ordersEx1 : List Order :=
  [{ id := "O0", pickup_location := (0, 1), delivery_location := (0, 1),
     time_window := ⟨0, 0⟩, weight_kg := 10, volume_m3 := 1 },
   { id := "O1", pickup_location := (0, 2), delivery_location := (0, 2),
     time_window := ⟨0, 0⟩, weight_kg := 2, volume_m3 := 1 },
   { id := "O2", pickup_location := (0, 3), delivery_location := (0, 3),
     time_window := ⟨0, 0⟩, weight_kg := 5, volume_m3 := 1 }]

/-- Concrete vehicles for the salvage trace: `V0` fits no order (every
order outweighs its 1 kg maximum), so it produces no route and shifts
the route list against the vehicle list by one position. -/
def vehiclesEx1 : List Vehicle :=
  [{ id := "V0", max_weight_kg := 1, max_volume_m3 := 100, start_location := (1, 0) },
   { id := "V1", max_weight_kg := 10, max_volume_m3 := 100, start_location := (1, 0) },
   { id := "V2", max_weight_kg := 6, max_volume_m3 := 100, start_location := (1, 0) }]

/-- A single order whose pickup and delivery are far apart (equator,
longitudes 0 and 180), for evaluating the 2-opt distance function. -/
def ordersEx2 : List Order :=
  [{ id := "A", pickup_location := (0, 0), delivery_location := (0, 180),
     time_window := ⟨0, 0⟩, weight_kg := 1, volume_m3 := 1 }]

/-- A single small order fitting comfortably in one vehicle. -/
def ordersW : List Order :=
  [{ id := "O", pickup_location := (0, 1), delivery_location := (0, 1),
     time_window := ⟨0, 0⟩, weight_kg := 1, volume_m3 := 1 }]

/-- A single vehicle with ample capacity. -/
def vehiclesW : List Vehicle :=
  [{ id := "V", max_weight_kg := 10, max_volume_m3 := 10, start_location := (1, 0) }]

/-! ## Distance matrix: symmetry and zero diagonal (claim C4) -/

theorem pairBlocks_nil (g : ℕ → List (ℕ × ℕ)) : pairBlocks g [] = [] := rfl

theorem pairBlocks_cons (g : ℕ → List (ℕ × ℕ)) (a : ℕ) (t : List ℕ) :
    pairBlocks g (a :: t) = g a ++ pairBlocks g t := rfl

theorem mem_pairBlocks {g : ℕ → List (ℕ × ℕ)} {l : List ℕ} {x : ℕ × ℕ} :
    x ∈ pairBlocks g l ↔ ∃ i ∈ l, x ∈ g i := by
  induction l with
  | nil => simp [pairBlocks_nil]
  | cons a t ih => simp [pairBlocks_cons, List.mem_append, ih]

theorem nodup_pairBlocks {g : ℕ → List (ℕ × ℕ)} :
    ∀ {l : List ℕ}, l.Nodup → (∀ i, (g i).Nodup) → (∀ i p, p ∈ g i → p.1 = i) →
      (pairBlocks g l).Nodup := by
  intro l
  induction l with
  | nil =>
    intro _ _ _
    simp [pairBlocks_nil]
  | cons a t ih =>
    intro hnd hg hfst
    rw [pairBlocks_cons, List.nodup_append]
    refine ⟨hg a, ih (List.nodup_cons.mp hnd).2 hg hfst, ?_⟩
    intro p hpga hpt
    have h1 : p.1 = a := hfst a p hpga
    rcases mem_pairBlocks.mp hpt with ⟨i, hit, hpgi⟩
    have h2 : p.1 = i := hfst i p hpgi
    have hat : a ∈ t := by rw [← h1, h2]; exact hit
    exact (List.nodup_cons.mp hnd).1 hat

theorem mem_dmPairs {n a b : ℕ} : (a, b) ∈ dmPairs n ↔ a < b ∧ b < n := by
  unfold dmPairs
  rw [mem_pairBlocks]
  constructor
  · rintro ⟨i, hi, hm⟩
    simp only [List.mem_map, Prod.mk.injEq] at hm
    rcases hm with ⟨j, hj, rfl, rfl⟩
    rw [List.mem_range] at hi
    rw [List.mem_range'_1] at hj
    omega
  · rintro ⟨hab, hbn⟩
    refine ⟨a, List.mem_range.mpr (by omega), ?_⟩
    simp only [List.mem_map, Prod.mk.injEq]
    exact ⟨b, List.mem_range'_1.mpr ⟨by omega, by omega⟩, by simp⟩

theorem nodup_dmPairs (n : ℕ) : (dmPairs n).Nodup := by
  apply nodup_pairBlocks (List.nodup_range _)
  · intro i
    apply List.Nodup.map
    · intro x y hxy
      simpa using congrArg Prod.snd hxy
    · exact List.nodup_range' _ _
  · intro i p hp
    simp only [List.mem_map] at hp
    rcases hp with ⟨j, _, rfl⟩
    rfl

theorem foldl_dmStep_untouched (h : Loc → Loc → ℚ) (locs : List Loc) (a b : ℕ) :
    ∀ (L : List (ℕ × ℕ)) (m : ℕ → ℕ → ℚ),
      (∀ p ∈ L, ¬ ((p.1 = a ∧ p.2 = b) ∨ (p.1 = b ∧ p.2 = a))) →
      (L.foldl (dmStep h locs) m) a b = m a b := by
  intro L
  induction L with
  | nil =>
    intro m _
    rfl
  | cons p t ih =>
    intro m hL
    rw [List.foldl_cons, ih _ (fun q hq => hL q (List.mem_cons_of_mem p hq))]
    have hp := hL p (List.mem_cons_self p t)
    unfold dmStep write2
    split_ifs with h1 h2
    · exact absurd (Or.inr ⟨h1.2.symm, h1.1.symm⟩) hp
    · exact absurd (Or.inl ⟨h2.1.symm, h2.2.symm⟩) hp
    · rfl

/-- Cell-level characterization of the double loop of
`compute_distance_matrix`: the upper-triangle pair `(min, max)` writes
both mirror cells with the haversine value of its two locations, and
every other cell keeps the initial zero. -/
theorem compute_distance_matrix_spec (h : Loc → Loc → ℚ) (locs : List Loc)
    (a b : ℕ) :
    compute_distance_matrix h locs a b =
      if a < b ∧ b < locs.length then h (locs.getD a (0, 0)) (locs.getD b (0, 0))
      else if b < a ∧ a < locs.length then h (locs.getD b (0, 0)) (locs.getD a (0, 0))
      else 0 := by
  unfold compute_distance_matrix
  by_cases hab : a < b ∧ b < locs.length
  · rw [if_pos hab]
    have hmem : (a, b) ∈ dmPairs locs.length := mem_dmPairs.mpr hab
    rcases List.append_of_mem hmem with ⟨L1, L2, hsplit⟩
    have hnd : (dmPairs locs.length).Nodup := nodup_dmPairs _
    rw [hsplit] at hnd
    have hnotin : (a, b) ∉ L2 :=
      (List.nodup_cons.mp ((List.sublist_append_right L1 _).nodup hnd)).1
    rw [hsplit, List.foldl_append, List.foldl_cons,
      foldl_dmStep_untouched h locs a b L2]
    · unfold dmStep write2
      rw [if_neg (by rintro ⟨h1, h2⟩; omega), if_pos ⟨rfl, rfl⟩]
    · intro q hq htouch
      have hq' : q ∈ dmPairs locs.length := by
        rw [hsplit]
        exact List.mem_append.mpr (Or.inr (List.mem_cons_of_mem _ hq))
      obtain ⟨q1, q2⟩ := q
      have hq12 := mem_dmPairs.mp hq'
      rcases htouch with ⟨h1, h2⟩ | ⟨h1, h2⟩
      · subst h1; subst h2
        exact hnotin hq
      · exfalso
        omega
  · by_cases hba : b < a ∧ a < locs.length
    · rw [if_neg hab, if_pos hba]
      have hmem : (b, a) ∈ dmPairs locs.length := mem_dmPairs.mpr hba
      rcases List.append_of_mem hmem with ⟨L1, L2, hsplit⟩
      have hnd : (dmPairs locs.length).Nodup := nodup_dmPairs _
      rw [hsplit] at hnd
      have hnotin : (b, a) ∉ L2 :=
        (List.nodup_cons.mp ((List.sublist_append_right L1 _).nodup hnd)).1
      rw [hsplit, List.foldl_append, List.foldl_cons,
        foldl_dmStep_untouched h locs a b L2]
      · unfold dmStep write2
        rw [if_pos ⟨rfl, rfl⟩]
      · intro q hq htouch
        have hq' : q ∈ dmPairs locs.length := by
          rw [hsplit]
          exact List.mem_append.mpr (Or.inr (List.mem_cons_of_mem _ hq))
        obtain ⟨q1, q2⟩ := q
        have hq12 := mem_dmPairs.mp hq'
        rcases htouch with ⟨h1, h2⟩ | ⟨h1, h2⟩
        · exfalso
          omega
        · subst h1; subst h2
          exact hnotin hq
    · rw [if_neg hab, if_neg hba,
        foldl_dmStep_untouched h locs a b (dmPairs locs.length)]
      intro q hq htouch
      obtain ⟨q1, q2⟩ := q
      have hq12 := mem_dmPairs.mp hq
      rcases htouch with ⟨h1, h2⟩ | ⟨h1, h2⟩ <;> omega

/-- Claim C4: for every location list the computed matrix has a zero
diagonal, is symmetric, and each off-diagonal in-range entry equals the
haversine distance of the two locations (the haversine function is
symmetric, which the mirrored write realizes). -/
theorem compute_distance_matrix_symm_zero_diag (h : Loc → Loc → ℚ)
    (locs : List Loc) (hsymm : ∀ p q, h p q = h q p) :
    ∀ i j, i < locs.length → j < locs.length →
      compute_distance_matrix h locs i i = 0 ∧
      compute_distance_matrix h locs i j = compute_distance_matrix h locs j i ∧
      (i ≠ j → compute_distance_matrix h locs i j =
        h (locs.getD i (0, 0)) (locs.getD j (0, 0))) := by
  intro i j hi hj
  refine ⟨?_, ?_, ?_⟩
  · rw [compute_distance_matrix_spec]
    simp
  · rw [compute_distance_matrix_spec, compute_distance_matrix_spec]
    rcases lt_trichotomy i j with hlt | heq | hgt
    · rw [if_pos ⟨hlt, hj⟩, if_neg (by omega), if_pos ⟨hlt, hj⟩]
    · subst heq
      rfl
    · rw [if_neg (by omega), if_pos ⟨hgt, hi⟩, if_pos ⟨hgt, hi⟩]
  · intro hne
    rw [compute_distance_matrix_spec]
    rcases lt_or_gt_of_ne hne with hlt | hgt
    · rw [if_pos ⟨hlt, hj⟩]
    · rw [if_neg (by omega), if_pos ⟨hgt, hi⟩]
      exact hsymm _ _

/-- The concrete stand-in distance is symmetric. -/
theorem sqDist_symm (p q : Loc) : sqDist p q = sqDist q p := by
  unfold sqDist
  ring

/-- Claim C4, witness: the characterization applied to a two-location
list with the concrete symmetric distance function. -/
theorem compute_distance_matrix_symm_zero_diag_witness :
    compute_distance_matrix sqDist [((0 : ℚ), (0 : ℚ)), ((0 : ℚ), (1 : ℚ))] 0 0 = 0 ∧
    compute_distance_matrix sqDist [((0 : ℚ), (0 : ℚ)), ((0 : ℚ), (1 : ℚ))] 0 1 =
      compute_distance_matrix sqDist [((0 : ℚ), (0 : ℚ)), ((0 : ℚ), (1 : ℚ))] 1 0 ∧
    (0 ≠ 1 → compute_distance_matrix sqDist [((0 : ℚ), (0 : ℚ)), ((0 : ℚ), (1 : ℚ))] 0 1 =
      sqDist ((0 : ℚ), (0 : ℚ)) ((0 : ℚ), (1 : ℚ))) := by
  simpa using compute_distance_matrix_symm_zero_diag sqDist
    [((0 : ℚ), (0 : ℚ)), ((0 : ℚ), (1 : ℚ))] sqDist_symm 0 1 (by norm_num) (by norm_num)

/-! ## Capacity validator: characterization (claim C5) -/

/-- The accumulator loop of the capacity validator succeeds exactly when
every nonempty initial segment of the load sequence keeps both running
totals (started at the accumulator values) within the maxima. -/
theorem vehicle_capacity_validate_loop_iff (maxW maxV : ℚ) :
    ∀ (loads : List (ℚ × ℚ)) (tw tv : ℚ),
      vehicle_capacity_validate_loop maxW maxV tw tv loads = true ↔
        ∀ k, 1 ≤ k → k ≤ loads.length →
          tw + ((loads.take k).map Prod.fst).sum ≤ maxW ∧
          tv + ((loads.take k).map Prod.snd).sum ≤ maxV := by
  intro loads
  induction loads with
  | nil =>
    intro tw tv
    simp only [vehicle_capacity_validate_loop, List.length_nil]
    constructor
    · intro _ k hk1 hk2
      omega
    · intro _
      trivial
  | cons load rest ih =>
    intro tw tv
    simp only [vehicle_capacity_validate_loop]
    by_cases h1 : tw + load.1 > maxW
    · rw [if_pos h1]
      constructor
      · intro hfalse
        exact absurd hfalse (by simp)
      · intro hall
        have h := (hall 1 (le_refl 1) (by simp)).1
        simp at h
        exact absurd h (not_le.mpr h1)
    · rw [if_neg h1]
      by_cases h2 : tv + load.2 > maxV
      · rw [if_pos h2]
        constructor
        · intro hfalse
          exact absurd hfalse (by simp)
        · intro hall
          have h := (hall 1 (le_refl 1) (by simp)).2
          simp at h
          exact absurd h (not_le.mpr h2)
      · rw [if_neg h2]
        rw [ih (tw + load.1) (tv + load.2)]
        constructor
        · intro hS k hk1 hk2
          match k with
          | 1 =>
            simp only [List.take_succ_cons, List.take_zero, List.map_cons,
              List.map_nil, List.sum_cons, List.sum_nil, add_zero]
            exact ⟨not_lt.mp h1, not_lt.mp h2⟩
          | (k' + 2) =>
            have hk' : 1 ≤ k' + 1 := by omega
            have hk'2 : k' + 1 ≤ rest.length := by
              simp only [List.length_cons] at hk2
              omega
            have h := hS (k' + 1) hk' hk'2
            simp only [List.take_succ_cons, List.map_cons, List.sum_cons]
            constructor
            · linarith [h.1]
            · linarith [h.2]
        · intro hF k hk1 hk2
          have h := hF (k + 1) (by omega) (by simp only [List.length_cons]; omega)
          simp only [List.take_succ_cons, List.map_cons, List.sum_cons] at h
          constructor
          · linarith [h.1]
          · linarith [h.2]

/-- Claim C5 (corrected): `VehicleCapacityConstraint.validate` returns
true if and only if every nonempty initial segment of the load sequence
has cumulative weight at most the max weight and cumulative volume at
most the max volume.  (For the empty sequence the condition is vacuous,
so the validator returns true, as the claim also states; the claim's
all-prefixes version fails for the empty initial segment when a maximum
is negative — see the counterexample.) -/
theorem vehicle_capacity_validate_iff (maxW maxV : ℚ) (loads : List (ℚ × ℚ)) :
    vehicle_capacity_validate maxW maxV loads = true ↔
      ∀ k, 1 ≤ k → k ≤ loads.length →
        ((loads.take k).map Prod.fst).sum ≤ maxW ∧
        ((loads.take k).map Prod.snd).sum ≤ maxV := by
  unfold vehicle_capacity_validate
  rw [vehicle_capacity_validate_loop_iff]
  simp only [zero_add]

/-- Claim C5, counterexample to the claim as stated: with max weight −1,
max volume 0 and the empty load sequence, `validate` returns true but the
empty initial segment (cumulative weight 0) exceeds the max weight −1, so
the claimed equivalence over all initial segments fails. -/
theorem vehicle_capacity_validate_all_prefixes_cex :
    ¬ (vehicle_capacity_validate (-1) 0 [] = true ↔
      ∀ k, k ≤ ([] : List (ℚ × ℚ)).length →
        ((([] : List (ℚ × ℚ)).take k).map Prod.fst).sum ≤ -1 ∧
        ((([] : List (ℚ × ℚ)).take k).map Prod.snd).sum ≤ 0) := by
  intro h
  have h0 := (h.mp rfl 0 (by simp)).1
  simp at h0
  exact absurd h0 (by norm_num)

/-- Claim C5, witness: the corrected characterization applied at a
concrete input whose second initial segment exceeds the weight maximum. -/
theorem vehicle_capacity_validate_iff_witness :
    vehicle_capacity_validate 5 5 [(3, 1), (3, 9)] = false := by
  rcases Bool.eq_false_or_eq_true (vehicle_capacity_validate 5 5 [(3, 1), (3, 9)]) with hb | hb
  · exfalso
    have h := (vehicle_capacity_validate_iff 5 5 [(3, 1), (3, 9)]).mp hb 2
      (by norm_num) (by norm_num)
    norm_num at h
  · exact hb

/-! ## Driver hours validator (claim C6) -/

/-- Claim C6: `DriverHoursConstraint.validate` returns false when the
total time exceeds the max shift (in minutes); otherwise, when the
driving hours exceed the break threshold, it returns true exactly when
the total minutes reach (driving hours + mandatory break hours) × 60;
otherwise it returns true. -/
theorem driver_hours_validate_spec
    (max_shift_hours mandatory_break_hours break_after_hours : ℚ)
    (total_time_minutes driving_time_minutes : ℚ) :
    (total_time_minutes / 60 > max_shift_hours →
      driver_hours_validate max_shift_hours mandatory_break_hours break_after_hours
        total_time_minutes driving_time_minutes = false) ∧
    (¬ total_time_minutes / 60 > max_shift_hours →
      driving_time_minutes / 60 > break_after_hours →
      (driver_hours_validate max_shift_hours mandatory_break_hours break_after_hours
          total_time_minutes driving_time_minutes = true ↔
        (driving_time_minutes / 60 + mandatory_break_hours) * 60 ≤ total_time_minutes)) ∧
    (¬ total_time_minutes / 60 > max_shift_hours →
      ¬ driving_time_minutes / 60 > break_after_hours →
      driver_hours_validate max_shift_hours mandatory_break_hours break_after_hours
        total_time_minutes driving_time_minutes = true) := by
  unfold driver_hours_validate
  refine ⟨fun h => ?_, fun h1 h2 => ?_, fun h1 h2 => ?_⟩
  · rw [if_pos h]
  · rw [if_neg h1, if_pos h2]
    by_cases h3 : total_time_minutes <
        (driving_time_minutes / 60 + mandatory_break_hours) * 60
    · rw [if_pos h3]
      simp only [Bool.false_eq_true, false_iff, not_le]
      exact h3
    · rw [if_neg h3]
      simp only [true_iff]
      exact not_lt.mp h3
  · rw [if_neg h1, if_neg h2]

/-- Claim C6, witness: a shift of 700 minutes exceeds the default
10-hour maximum, so the validator rejects it. -/
theorem driver_hours_validate_spec_witness :
    driver_hours_validate 10 (1 / 2) 5 700 100 = false :=
  (driver_hours_validate_spec 10 (1 / 2) 5 700 100).1 (by norm_num)

/-! ## Empty order list (claim C7) -/

/-- Helper: the empty-orders early return of `optimize`. -/
theorem optimize_nil (dist : Loc → Loc → ℚ) (vehicles : List Vehicle)
    (b : Bool) : optimize dist [] vehicles b = [] := rfl

/-- Claim C7: `optimize` called with an empty order list returns the
empty route list for every vehicle list and improvement flag — the
source returns before the location extraction, distance matrix build, or
any other work. -/
theorem optimize_empty_orders (dist : Loc → Loc → ℚ) (vehicles : List Vehicle)
    (b : Bool) : optimize dist [] vehicles b = [] := rfl

/-! ## Greedy construction: bookkeeping lemmas -/

/-- The incumbent update either keeps the incumbent or installs the
scanned index. -/
theorem betterOf_eq_or (best : Option (ℕ × ℚ)) (i : ℕ) (d : ℚ) :
    betterOf best i d = best ∨ ∃ d2, betterOf best i d = some (i, d2) := by
  cases best with
  | none => exact Or.inr ⟨d, rfl⟩
  | some bp =>
    simp only [betterOf]
    by_cases h : d < bp.2
    · rw [if_pos h]
      exact Or.inr ⟨d, rfl⟩
    · rw [if_neg h]
      exact Or.inl rfl

/-- An index returned by the greedy scan is drawn from the scanned list
(or was already the incumbent best). -/
theorem findBest_mem (dist : Loc → Loc → ℚ) (orders : List Order) (vehicle : Vehicle)
    (w v : ℚ) (loc : Loc) :
    ∀ (l : List ℕ) (best : Option (ℕ × ℚ)) (i : ℕ) (d : ℚ),
      findBest dist orders vehicle w v loc l best = some (i, d) →
      i ∈ l ∨ best = some (i, d) := by
  intro l
  induction l with
  | nil =>
    intro best i d h
    simp only [findBest] at h
    exact Or.inr h
  | cons x rest ih =>
    intro best i d h
    simp only [findBest] at h
    split at h
    · rcases ih _ _ _ h with hi | hb
      · exact Or.inl (List.mem_cons_of_mem _ hi)
      · exact Or.inr hb
    · rcases ih _ _ _ h with hi | hb
      · exact Or.inl (List.mem_cons_of_mem _ hi)
      · rcases betterOf_eq_or best x
            (dist loc (orders.getD x default).pickup_location) with he | ⟨d2, he⟩
        · rw [he] at hb
          exact Or.inr hb
        · rw [he] at hb
          simp only [Option.some.injEq, Prod.mk.injEq] at hb
          exact Or.inl (by rw [← hb.1]; exact List.mem_cons_self x rest)

/-- The greedy loop partitions its unassigned pool: the input pool is a
permutation of the constructed sequence followed by the leftover pool. -/
theorem assignLoop_perm (dist : Loc → Loc → ℚ) (orders : List Order)
    (vehicle : Vehicle) :
    ∀ (fuel : ℕ) (un : List ℕ) (w v : ℚ) (loc : Loc),
      List.Perm un ((assignLoop dist orders vehicle fuel un w v loc).1 ++
        (assignLoop dist orders vehicle fuel un w v loc).2) := by
  intro fuel
  induction fuel with
  | zero =>
    intro un w v loc
    simp [assignLoop]
  | succ fuel ih =>
    intro un w v loc
    cases hfb : findBest dist orders vehicle w v loc un none with
    | none => simp [assignLoop, hfb]
    | some bp =>
      have hmem : bp.1 ∈ un := by
        rcases findBest_mem dist orders vehicle w v loc un none bp.1 bp.2 hfb with hi | hb
        · exact hi
        · cases hb
      simp only [assignLoop, hfb, List.cons_append]
      exact (List.perm_cons_erase hmem).trans
        (List.Perm.cons bp.1 (ih (un.erase bp.1) _ _ _))

/-- The metrics record carries exactly the input stop sequence. -/
theorem calculate_route_metrics_stops (dist : Loc → Loc → ℚ)
    (order_indices : List ℕ) (orders : List Order) (vehicle : Vehicle) :
    (calculate_route_metrics dist order_indices orders vehicle).stops =
      order_indices := by
  unfold calculate_route_metrics
  cases vehicle.end_location <;> rfl

/-- The construction phase partitions the initial pool: it is a
permutation of all constructed stops followed by the leftover pool. -/
theorem nn_construct_perm (dist : Loc → Loc → ℚ) (orders : List Order) :
    ∀ (vehicles : List Vehicle) (un : List ℕ),
      List.Perm un (stopsAll (nn_construct dist orders vehicles un).1 ++
        (nn_construct dist orders vehicles un).2) := by
  intro vehicles
  induction vehicles with
  | nil =>
    intro un
    simp [nn_construct, stopsAll]
  | cons vehicle rest ih =>
    intro un
    by_cases hun : un = []
    · subst hun
      simp [nn_construct, stopsAll]
    · have hA := assignLoop_perm dist orders vehicle un.length un 0 0
        vehicle.start_location
      by_cases hro : (assignLoop dist orders vehicle un.length un 0 0
          vehicle.start_location).1 = []
      · simp only [nn_construct, if_neg hun, if_pos hro]
        rw [hro, List.nil_append] at hA
        exact hA.trans (ih _)
      · simp only [nn_construct, if_neg hun, if_neg hro, stopsAll,
          calculate_route_metrics_stops]
        refine hA.trans ?_
        rw [List.append_assoc]
        exact List.Perm.append_left _ (ih _)

/-- Every route emitted by the construction phase has a nonempty stop
sequence. -/
theorem nn_construct_nonempty (dist : Loc → Loc → ℚ) (orders : List Order) :
    ∀ (vehicles : List Vehicle) (un : List ℕ) (r : Route),
      r ∈ (nn_construct dist orders vehicles un).1 → r.stops ≠ [] := by
  intro vehicles
  induction vehicles with
  | nil =>
    intro un r hr
    simp [nn_construct] at hr
  | cons vehicle rest ih =>
    intro un r hr
    by_cases hun : un = []
    · subst hun
      simp [nn_construct] at hr
    · simp only [nn_construct, if_neg hun] at hr
      split at hr
      · exact ih _ r hr
      · rcases List.mem_cons.mp hr with rfl | hr'
        · rw [calculate_route_metrics_stops]
          next hro => exact hro
        · exact ih _ r hr'

/-! ## Salvage pass: bookkeeping lemmas -/

/-- A position accepted by the salvage scan is a valid route index. -/
theorem findSalvage_lt (routes : List Route) (vehicles : List Vehicle)
    (order : Order) (i : ℕ) :
    findSalvage routes vehicles order = some i → i < routes.length := by
  intro h
  have hf := List.find?_some h
  simp only [route_fits] at hf
  split_ifs at hf with hP
  exact hP.1

/-- Appending a stop to the route at a valid position inserts exactly
that index into the multiset of all stops. -/
theorem stopsAll_set_addStop :
    ∀ (routes : List Route) (i idx : ℕ) (o : Order), i < routes.length →
      List.Perm (stopsAll (routes.set i (addStopToRoute (routes.getD i default) idx o)))
        (idx :: stopsAll routes) := by
  intro routes
  induction routes with
  | nil =>
    intro i idx o h
    simp at h
  | cons r rs ih =>
    intro i idx o h
    cases i with
    | zero =>
      simp only [List.set_cons_zero, List.getD_cons_zero, stopsAll, addStopToRoute]
      rw [List.append_assoc]
      exact List.perm_middle
    | succ i' =>
      simp only [List.set_cons_succ, List.getD_cons_succ, stopsAll]
      have hi' : i' < rs.length := by
        simp only [List.length_cons] at h
        omega
      exact (List.Perm.append_left r.stops (ih i' idx o hi')).trans List.perm_middle

/-- One salvage step either leaves the routes unchanged or inserts the
order index into the multiset of all stops. -/
theorem stopsAll_salvageOne (vehicles : List Vehicle) (orders : List Order)
    (routes : List Route) (idx : ℕ) :
    stopsAll (salvageOne vehicles orders routes idx) = stopsAll routes ∨
    List.Perm (stopsAll (salvageOne vehicles orders routes idx))
      (idx :: stopsAll routes) := by
  simp only [salvageOne]
  cases hfs : findSalvage routes vehicles (orders.getD idx default) with
  | none => exact Or.inl rfl
  | some i =>
    exact Or.inr (stopsAll_set_addStop routes i idx _
      (findSalvage_lt routes vehicles _ i hfs))

/-- The salvage pass keeps the stops duplicate-free when they are
duplicate-free and disjoint from the leftover pool. -/
theorem salvage_nodup (vehicles : List Vehicle) (orders : List Order) :
    ∀ (un : List ℕ) (routes : List Route),
      (stopsAll routes ++ un).Nodup →
      (stopsAll (salvage vehicles orders routes un)).Nodup := by
  intro un
  induction un with
  | nil =>
    intro routes h
    simp only [salvage]
    simpa using h
  | cons idx rest ih =>
    intro routes h
    simp only [salvage]
    apply ih
    rcases stopsAll_salvageOne vehicles orders routes idx with heq | hperm
    · rw [heq]
      have hsub : (stopsAll routes ++ rest).Sublist (stopsAll routes ++ idx :: rest) :=
        (List.sublist_cons_self idx rest).append_left (stopsAll routes)
      exact h.sublist hsub
    · have h2 : (idx :: (stopsAll routes ++ rest)).Nodup :=
        (List.perm_middle.nodup_iff).mp h
      exact ((hperm.append_right rest).nodup_iff).mpr h2

/-- Stops appearing after the salvage pass come from the input routes or
from the leftover pool. -/
theorem mem_stopsAll_salvage (vehicles : List Vehicle) (orders : List Order) :
    ∀ (un : List ℕ) (routes : List Route) (x : ℕ),
      x ∈ stopsAll (salvage vehicles orders routes un) →
      x ∈ stopsAll routes ∨ x ∈ un := by
  intro un
  induction un with
  | nil =>
    intro routes x h
    simp only [salvage] at h
    exact Or.inl h
  | cons idx rest ih =>
    intro routes x h
    simp only [salvage] at h
    rcases ih _ x h with h1 | h1
    · rcases stopsAll_salvageOne vehicles orders routes idx with heq | hperm
      · rw [heq] at h1
        exact Or.inl h1
      · rcases List.mem_cons.mp (hperm.mem_iff.mp h1) with rfl | h2
        · exact Or.inr (List.mem_cons_self x rest)
        · exact Or.inl h2
    · exact Or.inr (List.mem_cons_of_mem _ h1)

/-- The salvage pass preserves nonemptiness of every route's stops (it
only ever appends). -/
theorem salvage_nonempty (vehicles : List Vehicle) (orders : List Order) :
    ∀ (un : List ℕ) (routes : List Route),
      (∀ r ∈ routes, r.stops ≠ []) →
      ∀ r ∈ salvage vehicles orders routes un, r.stops ≠ [] := by
  intro un
  induction un with
  | nil =>
    intro routes h r hr
    simp only [salvage] at hr
    exact h r hr
  | cons idx rest ih =>
    intro routes h r hr
    simp only [salvage] at hr
    refine ih _ ?_ r hr
    intro r' hr'
    simp only [salvageOne] at hr'
    cases hfs : findSalvage routes vehicles (orders.getD idx default) with
    | none =>
      rw [hfs] at hr'
      exact h r' hr'
    | some i =>
      rw [hfs] at hr'
      rcases List.mem_or_eq_of_mem_set hr' with h1 | h1
      · exact h r' h1
      · rw [h1]
        simp [addStopToRoute]

/-! ## 2-opt improvement: the scan accepts no move -/

/-- The placeholder distance of `_calculate_route_distance` depends only
on the length of the stop sequence. -/
theorem calculate_route_distance_length (dist : Loc → Loc → ℚ) {s t : List ℕ}
    (h : s.length = t.length) :
    calculate_route_distance dist s = calculate_route_distance dist t := by
  unfold calculate_route_distance
  rw [h]
  by_cases hs : s = []
  · have ht : t = [] := List.length_eq_zero.mp (by rw [← h, hs]; rfl)
    rw [if_pos hs, if_pos ht]
  · have ht : t ≠ [] := by
      intro hh
      exact hs (List.length_eq_zero.mp (by rw [h, hh]; rfl))
    rw [if_neg hs, if_neg ht]

/-- Pairs visited by the 2-opt scan satisfy `i + 2 ≤ j < n`. -/
theorem mem_twoOptPairs_bounds {n : ℕ} {p : ℕ × ℕ} (h : p ∈ twoOptPairs n) :
    p.1 + 2 ≤ p.2 ∧ p.2 < n := by
  unfold twoOptPairs at h
  rcases mem_pairBlocks.mp h with ⟨i, hi, hm⟩
  simp only [List.mem_map] at hm
  rcases hm with ⟨j, hj, rfl⟩
  rw [List.mem_range] at hi
  rw [List.mem_range'_1] at hj
  constructor <;> (simp only []; omega)

/-- Segment reversal preserves the length of the stop sequence. -/
theorem twoOptSwap_length {stops : List ℕ} {i j : ℕ} (h2 : i + 2 ≤ j)
    (hj : j < stops.length) : (twoOptSwap stops i j).length = stops.length := by
  unfold twoOptSwap
  simp only [List.length_append, List.length_reverse, List.length_take,
    List.length_drop]
  omega

/-- No 2-opt move is ever accepted: a reversal preserves the sequence
length, and the placeholder distance depends only on the length, so the
strict-improvement test always fails. -/
theorem findImproving_none (dist : Loc → Loc → ℚ) (stops : List ℕ) :
    findImproving dist stops = none := by
  unfold findImproving
  have h : (twoOptPairs stops.length).find? (fun p =>
      decide (calculate_route_distance dist (twoOptSwap stops p.1 p.2) <
        calculate_route_distance dist stops)) = none := by
    rw [List.find?_eq_none]
    intro p hp
    have hb := mem_twoOptPairs_bounds hp
    have hlen := twoOptSwap_length hb.1 hb.2
    simp only [decide_eq_true_eq]
    rw [calculate_route_distance_length dist hlen]
    exact lt_irrefl _
  rw [h]
  rfl

/-- The 2-opt while-loop returns its input for every fuel value. -/
theorem improveLoop_id (dist : Loc → Loc → ℚ) :
    ∀ (fuel : ℕ) (stops : List ℕ), improveLoop dist fuel stops = stops := by
  intro fuel
  induction fuel with
  | zero =>
    intro stops
    rfl
  | succ fuel ih =>
    intro stops
    rw [improveLoop, findImproving_none]

/-- The improvement phase is the identity on route lists. -/
theorem improve_with_2opt_id (dist : Loc → Loc → ℚ) (routes : List Route) :
    improve_with_2opt dist routes = routes := by
  unfold improve_with_2opt
  have hr : ∀ r : Route, ({ r with stops := improveLoop dist (r.stops.length * r.stops.length + 1) r.stops } : Route) = r := by
    intro r
    rw [improveLoop_id]
  calc routes.map _ = routes.map id := List.map_congr_left (fun r _ => hr r)
    _ = routes := List.map_id routes

/-- With a nonempty order list, `optimize` returns the construction
phase's routes whatever the improvement flag. -/
theorem optimize_eq_nn (dist : Loc → Loc → ℚ) (orders : List Order)
    (vehicles : List Vehicle) (b : Bool) (h : orders ≠ []) :
    optimize dist orders vehicles b =
      nearest_neighbor_initial_solution dist orders vehicles := by
  unfold optimize
  rw [if_neg h]
  cases b
  · simp
  · simp [improve_with_2opt_id]

/-- The two improvement flags give identical outputs. -/
theorem optimize_improve_eq (dist : Loc → Loc → ℚ) (orders : List Order)
    (vehicles : List Vehicle) :
    optimize dist orders vehicles true = optimize dist orders vehicles false := by
  by_cases h : orders = []
  · subst h
    rfl
  · rw [optimize_eq_nn dist orders vehicles true h,
      optimize_eq_nn dist orders vehicles false h]

/-! ## Claim theorems about the optimizer output -/

/-- Any stop of a member route appears in the concatenation of all stops. -/
theorem mem_stopsAll_of_mem :
    ∀ (routes : List Route) (r : Route), r ∈ routes →
      ∀ x ∈ r.stops, x ∈ stopsAll routes := by
  intro routes
  induction routes with
  | nil =>
    intro r hr
    simp at hr
  | cons q rs ih =>
    intro r hr x hx
    simp only [stopsAll]
    rcases List.mem_cons.mp hr with rfl | hr'
    · exact List.mem_append.mpr (Or.inl hx)
    · exact List.mem_append.mpr (Or.inr (ih r hr' x hx))

/-- Duplicate-free concatenated stops give pairwise-disjoint stop lists. -/
theorem pairwise_disjoint_of_nodup_stopsAll :
    ∀ (routes : List Route), (stopsAll routes).Nodup →
      List.Pairwise (fun r s => ∀ v, v ∈ r.stops → v ∉ s.stops) routes := by
  intro routes
  induction routes with
  | nil =>
    intro _
    exact List.Pairwise.nil
  | cons r rs ih =>
    intro h
    simp only [stopsAll] at h
    rw [List.nodup_append] at h
    refine List.Pairwise.cons ?_ (ih h.2.1)
    intro s hs v hv hvs
    exact h.2.2 hv (mem_stopsAll_of_mem rs s hs v hvs)

/-- The concatenated stops of the optimizer output are duplicate-free. -/
theorem nodup_stopsAll_optimize (dist : Loc → Loc → ℚ) (orders : List Order)
    (vehicles : List Vehicle) (b : Bool) :
    (stopsAll (optimize dist orders vehicles b)).Nodup := by
  by_cases h : orders = []
  · subst h
    rw [optimize_nil]
    exact List.nodup_nil
  · rw [optimize_eq_nn dist orders vehicles b h]
    unfold nearest_neighbor_initial_solution
    apply salvage_nodup
    exact ((nn_construct_perm dist orders vehicles
      (List.range orders.length)).nodup_iff).mp (List.nodup_range _)

/-- Claim C3: for every input, each order index appears in the stops of
at most one returned Route — the stop lists of distinct returned routes
are pairwise disjoint. -/
theorem optimize_stops_disjoint (dist : Loc → Loc → ℚ) (orders : List Order)
    (vehicles : List Vehicle) (b : Bool) :
    List.Pairwise (fun r s => ∀ v, v ∈ r.stops → v ∉ s.stops)
      (optimize dist orders vehicles b) :=
  pairwise_disjoint_of_nodup_stopsAll _ (nodup_stopsAll_optimize dist orders vehicles b)

/-- Claim C10: every returned Route has a nonempty stops list whose
elements are valid order indices, below the number of input orders. -/
theorem optimize_stops_valid (dist : Loc → Loc → ℚ) (orders : List Order)
    (vehicles : List Vehicle) (b : Bool) :
    ∀ r ∈ optimize dist orders vehicles b,
      r.stops ≠ [] ∧ ∀ i ∈ r.stops, i < orders.length := by
  intro r hr
  by_cases h : orders = []
  · rw [h, optimize_nil] at hr
    simp at hr
  · rw [optimize_eq_nn dist orders vehicles b h] at hr
    simp only [nearest_neighbor_initial_solution] at hr
    constructor
    · exact salvage_nonempty vehicles orders _ _
        (fun r' hr' => nn_construct_nonempty dist orders vehicles _ r' hr') r hr
    · intro i hi
      have hperm := nn_construct_perm dist orders vehicles (List.range orders.length)
      have hx := mem_stopsAll_of_mem _ r hr i hi
      rcases mem_stopsAll_salvage vehicles orders _ _ i hx with h1 | h1
      · exact List.mem_range.mp
          (hperm.mem_iff.mpr (List.mem_append.mpr (Or.inl h1)))
      · exact List.mem_range.mp
          (hperm.mem_iff.mpr (List.mem_append.mpr (Or.inr h1)))

/-- Symbolic evaluation of the optimizer on the one-order example. -/
theorem optimizeW_eval :
    optimize sqDist ordersW vehiclesW true =
      [{ vehicle_id := "V", stops := [0], total_distance := 2,
         total_time_minutes := 48, weight_used := 1, volume_used := 1 }] := by
  rw [optimize_eq_nn _ _ _ _ (by simp [ordersW])]
  norm_num [nearest_neighbor_initial_solution, nn_construct, assignLoop, findBest,
    betterOf, salvage, salvageOne, findSalvage, route_fits, calculate_route_metrics,
    metricsStep, ordersW, vehiclesW, sqDist, List.find?, List.erase_cons, stopsAll,
    List.range_succ, List.range_zero]

/-- Claim C10, witness: on a one-order, one-vehicle input the returned
route indeed has nonempty stops. -/
theorem optimize_stops_valid_witness :
    ((optimize sqDist ordersW vehiclesW true).getD 0 default).stops ≠ [] :=
  (optimize_stops_valid sqDist ordersW vehiclesW true
    ((optimize sqDist ordersW vehiclesW true).getD 0 default)
    (by rw [optimizeW_eval]; exact List.mem_cons_self _ _)).1

/-- Claim C9: the improvement phase rewrites only the `stops` field —
length is preserved and every other field of the route at each position
is unchanged. -/
theorem improve_with_2opt_frame (dist : Loc → Loc → ℚ) (routes : List Route) :
    (improve_with_2opt dist routes).length = routes.length ∧
    ∀ i : ℕ,
      (improve_with_2opt dist routes)[i]?.map Route.vehicle_id =
        routes[i]?.map Route.vehicle_id ∧
      (improve_with_2opt dist routes)[i]?.map Route.total_distance =
        routes[i]?.map Route.total_distance ∧
      (improve_with_2opt dist routes)[i]?.map Route.total_time_minutes =
        routes[i]?.map Route.total_time_minutes ∧
      (improve_with_2opt dist routes)[i]?.map Route.weight_used =
        routes[i]?.map Route.weight_used ∧
      (improve_with_2opt dist routes)[i]?.map Route.volume_used =
        routes[i]?.map Route.volume_used := by
  constructor
  · unfold improve_with_2opt
    exact List.length_map _ _
  · intro i
    cases hri : routes[i]? with
    | none => simp [improve_with_2opt, List.getElem?_map, hri]
    | some r => simp [improve_with_2opt, List.getElem?_map, hri]

/-- Claim C8: the total true travel distance of the routes returned with
2-opt enabled is at most that of the routes returned with it disabled
(the scan never accepts a move, so the outputs coincide). -/
theorem twoopt_total_distance_le (dist : Loc → Loc → ℚ) (orders : List Order)
    (vehicles : List Vehicle) :
    total_true_distance dist orders (optimize dist orders vehicles true) ≤
      total_true_distance dist orders (optimize dist orders vehicles false) := by
  rw [optimize_improve_eq]

/-- Symbolic evaluation of the optimizer on the salvage example:
vehicle `V0` gets no route, `V1` takes order 0, `V2` takes order 1, and
the salvage pass appends the leftover order 2 to `V2`'s route (checking
it against `V1`'s capacity), for a total of 7 kg on the 6 kg vehicle. -/
theorem optimizeEx1_eval :
    optimize sqDist ordersEx1 vehiclesEx1 true =
      [{ vehicle_id := "V1", stops := [0], total_distance := 2,
         total_time_minutes := 48, weight_used := 10, volume_used := 1 },
       { vehicle_id := "V2", stops := [1, 2], total_distance := 5,
         total_time_minutes := 105 / 2, weight_used := 7, volume_used := 2 }] := by
  rw [optimize_eq_nn _ _ _ _ (by simp [ordersEx1])]
  have hlen : ordersEx1.length = 3 := by simp [ordersEx1]
  have hrange : List.range 3 = [0, 1, 2] := by
    norm_num [List.range_succ, List.range_zero]
  have aV0 : assignLoop sqDist ordersEx1
      { id := "V0", max_weight_kg := 1, max_volume_m3 := 100,
        start_location := (1, 0), end_location := none } 3 [0, 1, 2] 0 0 (1, 0) =
      ([], [0, 1, 2]) := by
    norm_num [assignLoop, findBest, betterOf, ordersEx1, sqDist]
  have aV1 : assignLoop sqDist ordersEx1
      { id := "V1", max_weight_kg := 10, max_volume_m3 := 100,
        start_location := (1, 0), end_location := none } 3 [0, 1, 2] 0 0 (1, 0) =
      ([0], [1, 2]) := by
    norm_num [assignLoop, findBest, betterOf, ordersEx1, sqDist, List.erase_cons]
  have aV2 : assignLoop sqDist ordersEx1
      { id := "V2", max_weight_kg := 6, max_volume_m3 := 100,
        start_location := (1, 0), end_location := none } 2 [1, 2] 0 0 (1, 0) =
      ([1], [2]) := by
    norm_num [assignLoop, findBest, betterOf, ordersEx1, sqDist, List.erase_cons]
  have m1 : calculate_route_metrics sqDist [0] ordersEx1
      { id := "V1", max_weight_kg := 10, max_volume_m3 := 100,
        start_location := (1, 0), end_location := none } =
      { vehicle_id := "V1", stops := [0], total_distance := 2,
        total_time_minutes := 48, weight_used := 10, volume_used := 1 } := by
    norm_num [calculate_route_metrics, metricsStep, ordersEx1, sqDist]
  have m2 : calculate_route_metrics sqDist [1] ordersEx1
      { id := "V2", max_weight_kg := 6, max_volume_m3 := 100,
        start_location := (1, 0), end_location := none } =
      { vehicle_id := "V2", stops := [1], total_distance := 5,
        total_time_minutes := 105 / 2, weight_used := 2, volume_used := 1 } := by
    norm_num [calculate_route_metrics, metricsStep, ordersEx1, sqDist]
  have sal : salvage
      [{ id := "V0", max_weight_kg := 1, max_volume_m3 := 100,
         start_location := (1, 0), end_location := none },
       { id := "V1", max_weight_kg := 10, max_volume_m3 := 100,
         start_location := (1, 0), end_location := none },
       { id := "V2", max_weight_kg := 6, max_volume_m3 := 100,
         start_location := (1, 0), end_location := none }] ordersEx1
      [{ vehicle_id := "V1", stops := [0], total_distance := 2,
         total_time_minutes := 48, weight_used := 10, volume_used := 1 },
       { vehicle_id := "V2", stops := [1], total_distance := 5,
         total_time_minutes := 105 / 2, weight_used := 2, volume_used := 1 }] [2] =
      [{ vehicle_id := "V1", stops := [0], total_distance := 2,
         total_time_minutes := 48, weight_used := 10, volume_used := 1 },
       { vehicle_id := "V2", stops := [1, 2], total_distance := 5,
         total_time_minutes := 105 / 2, weight_used := 7, volume_used := 2 }] := by
    norm_num [salvage, salvageOne, findSalvage, route_fits, addStopToRoute,
      ordersEx1, List.find?, List.getD, List.range_succ, List.range_zero]
  have nn : nn_construct sqDist ordersEx1
      [{ id := "V0", max_weight_kg := 1, max_volume_m3 := 100,
         start_location := (1, 0), end_location := none },
       { id := "V1", max_weight_kg := 10, max_volume_m3 := 100,
         start_location := (1, 0), end_location := none },
       { id := "V2", max_weight_kg := 6, max_volume_m3 := 100,
         start_location := (1, 0), end_location := none }] [0, 1, 2] =
      ([{ vehicle_id := "V1", stops := [0], total_distance := 2,
          total_time_minutes := 48, weight_used := 10, volume_used := 1 },
        { vehicle_id := "V2", stops := [1], total_distance := 5,
          total_time_minutes := 105 / 2, weight_used := 2, volume_used := 1 }],
       [2]) := by
    norm_num [nn_construct, aV0, aV1, aV2, m1, m2, List.cons_ne_nil]
  norm_num [nearest_neighbor_initial_solution, hrange, hlen, vehiclesEx1, nn, sal,
    List.cons_ne_nil]

/-- Claim C1, failing evaluation: on `ordersEx1`/`vehiclesEx1` vehicle
`V0` produces no route, so route index 1 belongs to `V2` while the
salvage pass checks it against `V1`'s capacity; the salvaged order `O2`
brings `V2`'s route to 7 kg against `V2`'s 6 kg maximum, so the full
stop prefix of that route violates the owning vehicle's capacity. -/
theorem optimize_salvage_overload :
    ((optimize sqDist ordersEx1 vehiclesEx1 true).getD 1 default).vehicle_id = "V2" ∧
    (vehiclesEx1.getD 2 default).id = "V2" ∧
    (vehiclesEx1.getD 2 default).max_weight_kg = 6 ∧
    ((optimize sqDist ordersEx1 vehiclesEx1 true).getD 1 default).stops = [1, 2] ∧
    stop_weight_sum ordersEx1
      (((optimize sqDist ordersEx1 vehiclesEx1 true).getD 1 default).stops) = 7 ∧
    ¬ (stop_weight_sum ordersEx1
        (((optimize sqDist ordersEx1 vehiclesEx1 true).getD 1 default).stops) ≤
      (vehiclesEx1.getD 2 default).max_weight_kg) := by
  rw [optimizeEx1_eval]
  norm_num [stop_weight_sum, ordersEx1, vehiclesEx1]

/-- Claim C2, failing evaluation: `_calculate_route_distance` computes
the placeholder sum (zero for any single-stop sequence, whatever the
order's coordinates), which differs from the true stop-to-stop distance
of the one-order sequence over its real pickup/delivery coordinates. -/
theorem calculate_route_distance_not_true :
    calculate_route_distance sqDist [0] = 0 ∧
    true_stop_sequence_distance sqDist ordersEx2 [0] = 32400 ∧
    calculate_route_distance sqDist [0] ≠
      true_stop_sequence_distance sqDist ordersEx2 [0] := by
  norm_num [calculate_route_distance, true_stop_sequence_distance, ordersEx2,
    sqDist, List.range_succ, List.range_zero]

end CanDelivers
